import Mathlib

/-!
Verification of the Siren support-insights dashboard (src/Legacy/dashboard.py).

The dashboard reads a CSV of support tickets, coerces four date columns,
fills absent categorical cells with defaults, applies the sidebar filters
(category, review status), and renders aggregate tables.  We embed the
dataframe as a list of records; each cell is an Option (absent = pandas NaN).
Date parsing in the fixed format given to to_datetime is kept as an abstract
function `parse : String → Option Nat`; only its success or failure on a cell
matters to the program logic, never the numeric value itself.
-/

namespace Siren

/-- A raw CSV record as produced by read_csv on the expected schema
(Summary, Category, Review_Flag, Created, Updated, Last Viewed, Resolved):
every cell is either a string or absent (NaN). -/
structure RawRow where
  summary : Option String
  category : Option String
  review_Flag : Option String
  created : Option String
  updated : Option String
  lastViewed : Option String
  resolved : Option String
deriving DecidableEq, Repr

/-- A loaded record after load_data: the four date columns hold parsed
timestamps, absent when the cell was absent or failed to parse (NaT). -/
structure Row where
  summary : Option String
  category : Option String
  review_Flag : Option String
  created : Option Nat
  updated : Option Nat
  lastViewed : Option Nat
  resolved : Option Nat
deriving DecidableEq, Repr

/-- pandas to_datetime(col, format = the fixed format, errors = coerce) on a
single cell: an absent cell stays absent, a present cell is parsed, and a
parse failure becomes an absent value (NaT) instead of an error. -/
def to_datetime_coerce (parse : String → Option Nat) (cell : Option String) : Option Nat :=
  match cell with
  | none => none
  | some v => parse v

/-- pandas Series.fillna on a single cell. -/
def fillna (d : String) (cell : Option String) : Option String :=
  some (cell.getD d)

/-- The per-row transformation performed by load_data, dashboard.py lines
52-60: parse the four date columns, default Category to "Uncategorized" and
Review_Flag to "NO". -/
def load_row (parse : String → Option Nat) (r : RawRow) : Row :=
  { summary := r.summary
    category := fillna "Uncategorized" r.category
    review_Flag := fillna "NO" r.review_Flag
    created := to_datetime_coerce parse r.created
    updated := to_datetime_coerce parse r.updated
    lastViewed := to_datetime_coerce parse r.lastViewed
    resolved := to_datetime_coerce parse r.resolved }

/-- load_data on an already-read CSV (the body of the try block, lines
50-62). -/
def load_data (parse : String → Option Nat) (raw : List RawRow) : List Row :=
  raw.map (load_row parse)

/-- df[df[Review_Flag] == YES] (lines 140 and 190). -/
def flagged_view (df : List Row) : List Row :=
  df.filter (fun r => r.review_Flag == some "YES")

/-- df[df[Review_Flag] == NO] (line 192). -/
def auto_assigned_view (df : List Row) : List Row :=
  df.filter (fun r => r.review_Flag == some "NO")

/-- df[df[Category] == c] (line 187); a NaN category never equals c. -/
def category_view (c : String) (df : List Row) : List Row :=
  df.filter (fun r => r.category == some c)

/-- The filter pipeline of main, lines 184-192: category filter unless
"All" is selected, then the review-status filter.  (The sidebar date range
is read but never applied to filtered_df in the code.) -/
def apply_filters (selectedCategory selectedReview : String) (df : List Row) : List Row :=
  let fdf := if selectedCategory = "All" then df else category_view selectedCategory df
  if selectedReview = "Flagged for Review" then flagged_view fdf
  else if selectedReview = "Auto-Assigned" then auto_assigned_view fdf
  else fdf

/-- Series.nunique: the number of distinct present values (line 141). -/
def nunique (l : List (Option String)) : Nat :=
  ((l.filterMap id).dedup).length

/-- create_summary_metrics, lines 137-144: total issues, flagged issues,
distinct categories, resolved issues. -/
def create_summary_metrics (df : List Row) : Nat × Nat × Nat × Nat :=
  (df.length,
   (flagged_view df).length,
   nunique (df.map Row.category),
   (df.filter (fun r => r.resolved.isSome)).length)

/-- The numeric value of the "Flagged for Review" delta, line 211: the
percentage is computed only when total_issues is positive, otherwise the
literal 0 is displayed, so no division by zero is ever evaluated. -/
def flagged_delta (df : List Row) : Rat :=
  let total_issues := df.length
  let flagged_issues := (flagged_view df).length
  if 0 < total_issues then (flagged_issues : Rat) / (total_issues : Rat) * 100 else 0

/-- String order as a Bool, for sorting group keys. -/
def le_string (a b : String) : Bool :=
  decide (a ≤ b)

/-- sorted(df[Category].unique()), line 165 (without the prepended "All"):
the distinct present category values, sorted. -/
def unique_categories (df : List Row) : List String :=
  ((df.filterMap Row.category).dedup).mergeSort le_string

/-- One line of the Category Breakdown table. -/
structure CategoryStat where
  category : String
  total : Nat
  flagged : Nat
  resolvedCount : Nat
deriving DecidableEq, Repr

/-- filtered_df.groupby(Category).agg(...), lines 256-264: one group per
distinct category value (groupby sorts the keys and drops absent keys);
Total counts the present Summary cells of the group, Flagged its YES review
flags, Resolved its present Resolved timestamps. -/
def category_stats (df : List Row) : List CategoryStat :=
  (unique_categories df).map (fun c =>
    let g := category_view c df
    { category := c
      total := (g.filter (fun r => r.summary.isSome)).length
      flagged := (flagged_view g).length
      resolvedCount := (g.filter (fun r => r.resolved.isSome)).length })

/-- Descending comparison on the Created column of two rows that both hold
a present timestamp. -/
def created_ge (a b : Row) : Bool :=
  decide (b.created.getD 0 ≤ a.created.getD 0)

/-- DataFrame.nlargest(n, Created), line 270: rows whose Created is absent
are dropped, the rest are sorted by Created descending (stable, so ties
keep their original order, matching keep = first), and the first n are
taken. -/
def nlargest_created (n : Nat) (df : List Row) : List Row :=
  ((df.filter (fun r => r.created.isSome)).mergeSort created_ge).take n

/-- The Recent Issues table, line 270: the 10 nlargest rows projected onto
the Summary, Category, Created and Review_Flag columns. -/
def recent_issues (df : List Row) :
    List (Option String × Option String × Option Nat × Option String) :=
  (nlargest_created 10 df).map (fun r => (r.summary, r.category, r.created, r.review_Flag))

/-- One record of the CSV written by filtered_df.to_csv (line 282), as it
reads back through read_csv.  Modelled at the record level: to_csv writes
exactly one (quoted) record per row and read_csv parses those records back,
so the exported file is its list of records; fmt renders a timestamp as
text. -/
def to_csv_record (fmt : Nat → String) (r : Row) : RawRow :=
  { summary := r.summary
    category := r.category
    review_Flag := r.review_Flag
    created := r.created.map fmt
    updated := r.updated.map fmt
    lastViewed := r.lastViewed.map fmt
    resolved := r.resolved.map fmt }

/-- filtered_df.to_csv, line 282, at the record level. -/
def to_csv (fmt : Nat → String) (df : List Row) : List RawRow :=
  df.map (to_csv_record fmt)

/-- What main renders: either the load-failure error screen (lines 157-159,
after which main returns) or the dashboard artifacts computed from the
filtered view. -/
inductive MainOutput where
  | loadFailure : MainOutput
  | dashboard :
      Nat × Nat × Nat × Nat → Rat → List CategoryStat →
      List (Option String × Option String × Option Nat × Option String) → MainOutput
deriving DecidableEq

/-- load_data including its try/except (lines 49-65): when reading the
input file fails the exception is caught and None is returned. -/
def load_data_result (parse : String → Option Nat)
    (input : Except String (List RawRow)) : Option (List Row) :=
  match input with
  | .error _ => none
  | .ok raw => some (load_data parse raw)

/-- main, lines 146-288: load, stop on the error screen when load_data
returned None, otherwise filter and compute every rendered artifact. -/
def main (parse : String → Option Nat) (input : Except String (List RawRow))
    (selectedCategory selectedReview : String) : MainOutput :=
  match load_data_result parse input with
  | none => MainOutput.loadFailure
  | some df =>
    let filtered_df := apply_filters selectedCategory selectedReview df
    MainOutput.dashboard (create_summary_metrics filtered_df)
      (flagged_delta filtered_df) (category_stats filtered_df)
      (recent_issues filtered_df)

/-- A parse function that fails on every string, and concrete records used
to instantiate the theorems below. -/
def parse_none : String → Option Nat :=
  fun _ => none

def raw_blank : RawRow :=
  { summary := none, category := none, review_Flag := none,
    created := none, updated := none, lastViewed := none, resolved := none }

def raw_dated : RawRow :=
  { summary := some "s", category := some "A", review_Flag := some "YES",
    created := some "31/12/2024 23:59", updated := some "31/12/2024 23:59",
    lastViewed := some "31/12/2024 23:59", resolved := some "31/12/2024 23:59" }

def raw_maybe : RawRow :=
  { summary := some "m", category := some "B", review_Flag := some "MAYBE",
    created := none, updated := none, lastViewed := none, resolved := none }

def raw_nosummary : RawRow :=
  { summary := none, category := some "A", review_Flag := some "NO",
    created := none, updated := none, lastViewed := none, resolved := none }

/-- A loaded row with a present Created timestamp t. -/
def row_t (t : Nat) : Row :=
  { summary := some "s", category := some "A", review_Flag := some "NO",
    created := some t, updated := none, lastViewed := none, resolved := none }

/-- C1: after load_data, every row holds a present Category and a present
Review_Flag; a row whose Category cell was absent in the input holds
"Uncategorized", and one whose Review_Flag cell was absent holds "NO". -/
theorem c1_defaults_after_load (parse : String → Option Nat) (raw : List RawRow)
    (i : Nat) (h : i < (load_data parse raw).length) :
    ((load_data parse raw)[i].category).isSome = true ∧
    ((load_data parse raw)[i].review_Flag).isSome = true ∧
    ∀ hr : i < raw.length,
      (raw[i].category = none →
        (load_data parse raw)[i].category = some "Uncategorized") ∧
      (raw[i].review_Flag = none →
        (load_data parse raw)[i].review_Flag = some "NO") := by
  refine ⟨?_, ?_, fun hr => ⟨fun hc => ?_, fun hf => ?_⟩⟩ <;>
    simp [load_data, load_row, fillna] <;>
    simp_all

theorem c1_defaults_after_load_witness :
    (load_data parse_none [raw_blank]).length = 1 ∧
    ((load_data parse_none [raw_blank]).get
        ⟨0, by simp [load_data]⟩).category = some "Uncategorized" ∧
    ((load_data parse_none [raw_blank]).get
        ⟨0, by simp [load_data]⟩).review_Flag = some "NO" := by
  have h : 0 < (load_data parse_none [raw_blank]).length := by simp [load_data]
  have main := c1_defaults_after_load parse_none [raw_blank] 0 h
  exact ⟨by simp [load_data], (main.2.2 (by simp)).1 rfl, (main.2.2 (by simp)).2 rfl⟩

/-- C7: for each of the four date columns, a present cell whose value the
fixed-format parse rejects becomes an absent value (NaT) in the loaded row;
load_data is a total function of the read records, so no error is raised. -/
theorem c7_bad_dates_coerced (parse : String → Option Nat) (raw : List RawRow)
    (i : Nat) (h : i < (load_data parse raw).length) (hr : i < raw.length) :
    (∀ v, raw[i].created = some v → parse v = none →
        (load_data parse raw)[i].created = none) ∧
    (∀ v, raw[i].updated = some v → parse v = none →
        (load_data parse raw)[i].updated = none) ∧
    (∀ v, raw[i].lastViewed = some v → parse v = none →
        (load_data parse raw)[i].lastViewed = none) ∧
    (∀ v, raw[i].resolved = some v → parse v = none →
        (load_data parse raw)[i].resolved = none) := by
  refine ⟨fun v hv hp => ?_, fun v hv hp => ?_, fun v hv hp => ?_, fun v hv hp => ?_⟩ <;>
    simp [load_data, load_row, to_datetime_coerce, hv, hp]

theorem c7_bad_dates_coerced_witness :
    ((load_data parse_none [raw_dated]).get
        ⟨0, by simp [load_data]⟩).created = none ∧
    ((load_data parse_none [raw_dated]).get
        ⟨0, by simp [load_data]⟩).resolved = none := by
  have h : 0 < (load_data parse_none [raw_dated]).length := by simp [load_data]
  have main := c7_bad_dates_coerced parse_none [raw_dated] 0 h (by simp)
  exact ⟨main.1 "31/12/2024 23:59" rfl rfl, main.2.2.2 "31/12/2024 23:59" rfl rfl⟩

/-- C5: exporting a filtered view to CSV and loading the result back
through load_data yields a table with exactly as many rows as the view:
both the export and the reload are one-record-per-row maps. -/
theorem c5_export_reload_row_count (parse : String → Option Nat) (fmt : Nat → String)
    (view : List Row) :
    (load_data parse (to_csv fmt view)).length = view.length := by
  simp [load_data, to_csv]

/-- C4: the Flagged for Review delta equals flagged count over total count
times 100 whenever the total is positive, and is the literal 0 when the
view is empty; the division is guarded by the positivity test, so the zero
case never evaluates a division. -/
theorem c4_flagged_percentage (df : List Row) :
    (0 < df.length →
      flagged_delta df = ((flagged_view df).length : Rat) / (df.length : Rat) * 100) ∧
    (df.length = 0 → flagged_delta df = 0) := by
  constructor <;> intro h <;> simp [flagged_delta, h]

theorem c4_flagged_percentage_witness :
    flagged_delta [load_row parse_none raw_dated] = 100 ∧
    flagged_delta ([] : List Row) = 0 := by
  refine ⟨?_, (c4_flagged_percentage ([] : List Row)).2 rfl⟩
  rw [(c4_flagged_percentage [load_row parse_none raw_dated]).1 (by simp)]
  norm_num [flagged_view, load_row, raw_dated, fillna]

/-- C8: a failed file read makes load_data return the absent result, main
render the error screen and nothing else; and on any successfully read
input main always renders the full dashboard, every later operation being
a total function of the loaded table (no other failure mode). -/
theorem c8_load_failure_short_circuits (parse : String → Option Nat) (msg : String)
    (selectedCategory selectedReview : String) :
    load_data_result parse (Except.error msg) = none ∧
    main parse (Except.error msg) selectedCategory selectedReview = MainOutput.loadFailure ∧
    ∀ raw : List RawRow,
      main parse (Except.ok raw) selectedCategory selectedReview =
        MainOutput.dashboard
          (create_summary_metrics (apply_filters selectedCategory selectedReview
            (load_data parse raw)))
          (flagged_delta (apply_filters selectedCategory selectedReview
            (load_data parse raw)))
          (category_stats (apply_filters selectedCategory selectedReview
            (load_data parse raw)))
          (recent_issues (apply_filters selectedCategory selectedReview
            (load_data parse raw))) :=
  ⟨rfl, rfl, fun _ => rfl⟩

/-- C9: the Flagged for Review view and the Auto-Assigned view are both
subsets of the loaded table, no row lies in both, and a row whose review
flag is neither YES nor NO lies in neither view. -/
theorem c9_review_views_disjoint (parse : String → Option Nat) (raw : List RawRow) :
    (∀ r ∈ flagged_view (load_data parse raw), r ∈ load_data parse raw) ∧
    (∀ r ∈ auto_assigned_view (load_data parse raw), r ∈ load_data parse raw) ∧
    (∀ r : Row, ¬ (r ∈ flagged_view (load_data parse raw) ∧
        r ∈ auto_assigned_view (load_data parse raw))) ∧
    (∀ r ∈ load_data parse raw,
      r.review_Flag ≠ some "YES" → r.review_Flag ≠ some "NO" →
        r ∉ flagged_view (load_data parse raw) ∧
        r ∉ auto_assigned_view (load_data parse raw)) := by
  refine ⟨fun r hr => List.mem_of_mem_filter hr,
          fun r hr => List.mem_of_mem_filter hr,
          fun r hrc => ?_,
          fun r hr h1 h2 => ⟨fun hm => ?_, fun hm => ?_⟩⟩
  · obtain ⟨hy, hn⟩ := hrc
    simp only [flagged_view, List.mem_filter, beq_iff_eq] at hy
    simp only [auto_assigned_view, List.mem_filter, beq_iff_eq] at hn
    exact absurd (hy.2.symm.trans hn.2) (by simp)
  · simp only [flagged_view, List.mem_filter, beq_iff_eq] at hm
    exact h1 hm.2
  · simp only [auto_assigned_view, List.mem_filter, beq_iff_eq] at hm
    exact h2 hm.2

theorem c9_review_views_disjoint_witness :
    (load_row parse_none raw_maybe) ∉ flagged_view (load_data parse_none [raw_maybe]) ∧
    (load_row parse_none raw_maybe) ∉ auto_assigned_view (load_data parse_none [raw_maybe]) :=
  (c9_review_views_disjoint parse_none [raw_maybe]).2.2.2 (load_row parse_none raw_maybe)
    (by simp [load_data]) (by simp [load_row, raw_maybe, fillna])
    (by simp [load_row, raw_maybe, fillna])

/-- C10: a row whose Created timestamp is absent never appears in the
Recent Issues selection, whatever the size of the view: nlargest drops
those rows before sorting and taking. -/
theorem c10_recent_requires_created (df : List Row) (r : Row)
    (h : r ∈ nlargest_created 10 df) : r.created.isSome = true := by
  have h1 : r ∈ (df.filter (fun s => s.created.isSome)).mergeSort created_ge :=
    List.take_subset _ _ h
  exact (List.mem_filter.mp (List.mem_mergeSort.mp h1)).2

/-- Every row of a loaded table carries a present category and review flag. -/
theorem mem_load_data_isSome (parse : String → Option Nat) (raw : List RawRow) :
    ∀ r ∈ load_data parse raw, r.category.isSome = true ∧ r.review_Flag.isSome = true := by
  intro r hr
  obtain ⟨s, _, rfl⟩ := List.mem_map.mp hr
  simp [load_row, fillna]

/-- The filter pipeline only keeps rows of the underlying table. -/
theorem apply_filters_subset (a b : String) (df : List Row) :
    ∀ r ∈ apply_filters a b df, r ∈ df := by
  intro r hr
  simp only [apply_filters, flagged_view, auto_assigned_view, category_view] at hr
  split_ifs at hr <;>
    first
      | exact hr
      | exact List.mem_of_mem_filter hr
      | exact List.mem_of_mem_filter (List.mem_of_mem_filter hr)

/-- Summing a pointwise sum of Nat-valued maps over a key list. -/
theorem sum_map_fun_add (ks : List String) (f g : String → Nat) :
    (ks.map (fun c => f c + g c)).sum = (ks.map f).sum + (ks.map g).sum := by
  induction ks with
  | nil => rfl
  | cons k ks ih => simp only [List.map_cons, List.sum_cons, ih]; omega

/-- Over a duplicate-free key list containing c0, a map vanishing away
from c0 sums to its value at c0. -/
theorem sum_map_single (c0 : String) (f : String → Nat) :
    ∀ ks : List String, ks.Nodup → c0 ∈ ks →
      (∀ c ∈ ks, c ≠ c0 → f c = 0) → (ks.map f).sum = f c0 := by
  intro ks
  induction ks with
  | nil => intro _ hc _; cases hc
  | cons k ks ih =>
    intro hnd hc hf
    obtain ⟨hk, hnd2⟩ := List.nodup_cons.mp hnd
    simp only [List.map_cons, List.sum_cons]
    rcases List.mem_cons.mp hc with rfl | hc2
    · have hz : (ks.map f).sum = 0 := by
        apply List.sum_eq_zero
        intro x hx
        obtain ⟨c, hcks, rfl⟩ := List.mem_map.mp hx
        exact hf c (List.mem_cons_of_mem _ hcks) (fun hcc => hk (hcc ▸ hcks))
      omega
    · have hk0 : f k = 0 :=
        hf k (List.mem_cons_self _ _) (fun h => hk (by rw [h]; exact hc2))
      rw [hk0, ih hnd2 hc2 (fun c hcks hcc => hf c (List.mem_cons_of_mem _ hcks) hcc)]
      omega

/-- The indicator of one row, summed over a complete duplicate-free list of
category keys. -/
theorem sum_indicator_category (r : Row) (p : Row → Bool) :
    ∀ ks : List String, ks.Nodup →
      (∀ c : String, r.category = some c → c ∈ ks) →
      (ks.map (fun c => if (p r && (r.category == some c)) then 1 else 0)).sum
        = if (p r && (r.category).isSome) then 1 else 0 := by
  intro ks hnd hcomp
  cases hp : p r with
  | false => simp [hp]
  | true =>
    cases hcat : r.category with
    | none => simp [hp, hcat]
    | some c0 =>
      have hside : ∀ c ∈ ks, c ≠ c0 →
          (if ((some c0 : Option String) == some c) then 1 else 0) = 0 := by
        intro c hcks hne
        rw [if_neg]
        simp only [beq_iff_eq, Option.some.injEq]
        exact fun h => hne h.symm
      simp only [Bool.true_and]
      rw [sum_map_single c0
          (fun c => if ((some c0 : Option String) == some c) then 1 else 0)
          ks hnd (hcomp c0 hcat) hside]
      simp

/-- Partitioning a row count over the distinct category keys: the per-key
counts of rows satisfying p sum to the count of rows with a present
category satisfying p. -/
theorem sum_countP_categories (p : Row → Bool) :
    ∀ (df : List Row) (ks : List String), ks.Nodup →
      (∀ r ∈ df, ∀ c : String, r.category = some c → c ∈ ks) →
      (ks.map (fun c => df.countP (fun r => p r && (r.category == some c)))).sum
        = df.countP (fun r => p r && (r.category).isSome) := by
  intro df
  induction df with
  | nil => intro ks _ _; simp
  | cons r df ih =>
    intro ks hnd hcomp
    have hrec := ih ks hnd (fun s hs => hcomp s (List.mem_cons_of_mem _ hs))
    simp only [List.countP_cons]
    rw [sum_map_fun_add ks (fun c => df.countP (fun s => p s && (s.category == some c)))
        (fun c => if (p r && (r.category == some c)) then 1 else 0),
      hrec,
      sum_indicator_category r p ks hnd (hcomp r (List.mem_cons_self _ _))]

/-- The key list of the breakdown table is duplicate-free. -/
theorem unique_categories_nodup (df : List Row) : (unique_categories df).Nodup :=
  ((List.mergeSort_perm ((df.filterMap Row.category).dedup) le_string).nodup_iff).mpr
    (List.nodup_dedup _)

/-- The key list of the breakdown table holds every present category. -/
theorem mem_unique_categories (df : List Row) :
    ∀ r ∈ df, ∀ c : String, r.category = some c → c ∈ unique_categories df := by
  intro r hr c hc
  have hmem : c ∈ (df.filterMap Row.category).dedup :=
    List.mem_dedup.mpr (List.mem_filterMap.mpr ⟨r, hr, hc⟩)
  simp only [unique_categories]
  exact List.mem_mergeSort.mpr hmem

/-- The Total column of the breakdown table sums to the number of rows with
a present Summary, for any table all of whose rows carry a present
category. -/
theorem category_stats_total_sum (df : List Row)
    (hcat : ∀ r ∈ df, (r.category).isSome = true) :
    ((category_stats df).map CategoryStat.total).sum
      = (df.filter (fun r => r.summary.isSome)).length := by
  have hmap : (category_stats df).map CategoryStat.total
      = (unique_categories df).map (fun c =>
          df.countP (fun r => r.summary.isSome && (r.category == some c))) := by
    simp only [category_stats, List.map_map]
    refine List.map_congr_left (fun c _ => ?_)
    show ((category_view c df).filter (fun r => r.summary.isSome)).length = _
    rw [category_view, List.filter_filter, ← List.countP_eq_length_filter]
  rw [hmap,
    sum_countP_categories (fun r => r.summary.isSome) df (unique_categories df)
      (unique_categories_nodup df) (mem_unique_categories df),
    ← List.countP_eq_length_filter]
  refine List.countP_congr (fun r hr => ?_)
  rw [hcat r hr]
  simp

/-- C2 (amended): the sum of the per-category Total counts of the Category
Breakdown table equals the number of rows of the filtered view whose
Summary is present (the count aggregate skips absent Summary cells); when
every row of the view carries a Summary this is the row count of the
view. -/
theorem c2_breakdown_total_sum (parse : String → Option Nat) (raw : List RawRow)
    (selectedCategory selectedReview : String) :
    ((category_stats (apply_filters selectedCategory selectedReview
        (load_data parse raw))).map CategoryStat.total).sum
      = ((apply_filters selectedCategory selectedReview (load_data parse raw)).filter
          (fun r => r.summary.isSome)).length :=
  category_stats_total_sum _ (fun r hr =>
    (mem_load_data_isSome parse raw r
      (apply_filters_subset selectedCategory selectedReview (load_data parse raw) r hr)).1)

/-- C2 as stated fails: a view holding one row whose Summary cell is absent
has breakdown Total sum 0 but row count 1. -/
theorem c2_counterexample :
    ¬ (((category_stats (apply_filters "All" "All"
          (load_data parse_none [raw_nosummary]))).map CategoryStat.total).sum
        = (apply_filters "All" "All" (load_data parse_none [raw_nosummary])).length) := by
  have hview : apply_filters "All" "All" (load_data parse_none [raw_nosummary])
      = [(⟨none, some "A", some "NO", none, none, none, none⟩ : Row)] := by
    simp [apply_filters, load_data, load_row, raw_nosummary, fillna,
      to_datetime_coerce, parse_none]
  rw [hview]
  have hkeys :
      unique_categories [(⟨none, some "A", some "NO", none, none, none, none⟩ : Row)]
        = ["A"] := by
    simp [unique_categories]
  simp [category_stats, hkeys, category_view, flagged_view]

/-- Occurrence count of a row in the concatenation of the per-key views. -/
theorem count_flatMap_views (r : Row) (df : List Row) :
    ∀ ks : List String,
      ((ks.flatMap (fun c => category_view c df)).count r)
        = (ks.map (fun c => (category_view c df).count r)).sum := by
  intro ks
  induction ks with
  | nil => simp
  | cons k ks ih => simp [List.flatMap_cons, List.count_append, ih]

/-- Concatenating the per-category views over a duplicate-free, complete
key list permutes the table, provided every row carries a present
category. -/
theorem category_views_partition (df : List Row)
    (hcat : ∀ r ∈ df, (r.category).isSome = true)
    (ks : List String) (hnd : ks.Nodup)
    (hcomp : ∀ r ∈ df, ∀ c : String, r.category = some c → c ∈ ks) :
    (ks.flatMap (fun c => category_view c df)).Perm df := by
  rw [List.perm_iff_count]
  intro r
  rw [count_flatMap_views]
  by_cases hmem : r ∈ df
  · obtain ⟨c0, hc0⟩ := Option.isSome_iff_exists.mp (hcat r hmem)
    have hzero : ∀ c ∈ ks, c ≠ c0 → (category_view c df).count r = 0 := by
      intro c _ hne
      rw [List.count_eq_zero]
      intro hrin
      have hval := (List.mem_filter.mp hrin).2
      rw [hc0] at hval
      simp only [beq_iff_eq, Option.some.injEq] at hval
      exact hne hval.symm
    rw [sum_map_single c0 (fun c => (category_view c df).count r) ks hnd
        (hcomp r hmem c0 hc0) hzero]
    rw [category_view, List.count_filter (by simp [hc0])]
  · rw [List.count_eq_zero.mpr hmem]
    apply List.sum_eq_zero
    intro x hx
    obtain ⟨c, _, rfl⟩ := List.mem_map.mp hx
    have hle : (category_view c df).count r ≤ df.count r :=
      (List.filter_sublist df).count_le r
    rw [List.count_eq_zero.mpr hmem] at hle
    omega

/-- C3: the category view for c holds exactly the rows of the loaded table
whose Category is c, and the concatenation of the views over the distinct
category values is a permutation of (the multiset equality of lists: the
union reconstructs) the unfiltered table. -/
theorem c3_category_filter_partition (parse : String → Option Nat) (raw : List RawRow) :
    (∀ c : String, ∀ r : Row,
        r ∈ category_view c (load_data parse raw) ↔
          (r ∈ load_data parse raw ∧ r.category = some c)) ∧
    ((unique_categories (load_data parse raw)).flatMap
        (fun c => category_view c (load_data parse raw))).Perm
      (load_data parse raw) := by
  constructor
  · intro c r
    simp [category_view, List.mem_filter]
  · exact category_views_partition (load_data parse raw)
      (fun r hr => (mem_load_data_isSome parse raw r hr).1)
      (unique_categories (load_data parse raw))
      (unique_categories_nodup (load_data parse raw))
      (mem_unique_categories (load_data parse raw))

theorem c3_category_filter_partition_witness :
    load_row parse_none raw_dated ∈
      category_view "A" (load_data parse_none [raw_dated]) :=
  ((c3_category_filter_partition parse_none [raw_dated]).1 "A"
      (load_row parse_none raw_dated)).mpr
    ⟨by simp [load_data], by simp [load_row, raw_dated, fillna]⟩

/-- C6: the Recent Issues selection takes the min(10, qualifying) rows
with the largest Created timestamps: it has that length, and the
qualifying rows (those with a present Created) split, up to permutation,
into the selection and a remainder every element of which has a Created
timestamp no larger than that of any selected row. -/
theorem c6_recent_issues_top10 (df : List Row) :
    (nlargest_created 10 df).length
        = min 10 ((df.filter (fun r => r.created.isSome)).length) ∧
    ∃ rest : List Row,
      ((nlargest_created 10 df) ++ rest).Perm (df.filter (fun r => r.created.isSome)) ∧
      ∀ r ∈ nlargest_created 10 df, ∀ s ∈ rest,
        (s.created).getD 0 ≤ (r.created).getD 0 := by
  have htrans : ∀ a b c : Row, created_ge a b → created_ge b c → created_ge a c := by
    intro a b c hab hbc
    simp only [created_ge, decide_eq_true_eq] at hab hbc ⊢
    omega
  have htotal : ∀ a b : Row, created_ge a b || created_ge b a := by
    intro a b
    simp only [created_ge, Bool.or_eq_true, decide_eq_true_eq]
    omega
  refine ⟨by simp [nlargest_created], ?_⟩
  refine ⟨((df.filter (fun r => r.created.isSome)).mergeSort created_ge).drop 10, ?_, ?_⟩
  · rw [nlargest_created, List.take_append_drop]
    exact List.mergeSort_perm _ _
  · intro r hr s hs
    have hsorted :=
      List.sorted_mergeSort htrans htotal (df.filter (fun r => r.created.isSome))
    rw [← List.take_append_drop 10
        ((df.filter (fun r => r.created.isSome)).mergeSort created_ge)] at hsorted
    have hge := (List.pairwise_append.mp hsorted).2.2 r hr s hs
    simpa [created_ge] using hge

theorem c6_recent_issues_top10_witness :
    (nlargest_created 10 [row_t 5, load_row parse_none raw_blank]).length = 1 := by
  have hlen := (c6_recent_issues_top10 [row_t 5, load_row parse_none raw_blank]).1
  simpa [row_t, load_row, raw_blank, to_datetime_coerce, parse_none] using hlen

theorem c10_recent_requires_created_witness :
    (row_t 5).created.isSome = true ∧
    (load_row parse_none raw_blank) ∉
      nlargest_created 10 [row_t 5, load_row parse_none raw_blank] :=
  ⟨c10_recent_requires_created [row_t 5, load_row parse_none raw_blank] (row_t 5)
      (by simp [nlargest_created, row_t, load_row, raw_blank, to_datetime_coerce,
        fillna, parse_none]),
   fun hmem => by
    have := c10_recent_requires_created [row_t 5, load_row parse_none raw_blank]
      (load_row parse_none raw_blank) hmem
    simp [load_row, raw_blank, to_datetime_coerce, parse_none] at this⟩
